import Mathlib

/-
  Verification of the tweepy HTTP client (src/tweepy/client.py) against its
  natural-language specification.

  Shallow embedding conventions:
  - Python strings are embedded as lists of characters (PyStr).
  - Python byte strings (response bodies, file contents) are lists of naturals.
  - The requests transport collaborator is an opaque function from the request
    data to either a transport failure (a RequestException, represented by its
    message string) or an HTTP response (status code and body).  The session
    object created in the constructor carries it.
  - The pluggable parser is a structure of its three capabilities, polymorphic
    in the type of parsed values.
  - Exceptions are values of an inductive type; a raising operation returns
    Except PyExn.
  - Client.request additionally returns a trace of observable events
    (the dispatched HTTP call, parser invocations) so that claims about which
    collaborators were invoked are statable.  The result component is exactly
    what the Python function returns or raises.
-/

namespace Tweepy

/-- A Python string, embedded as its list of characters. -/
abbrev PyStr := List Char

/-- Build a PyStr from a Lean string literal. -/
def pystr (s : String) : PyStr := s.data

/-- A Python byte string (response body, file content), one natural per byte. -/
abbrev Bytes := List Nat

/-- A Python value usable as a parameter value in the parameter mapping
(strings, numbers, None all occur at call sites of the client). -/
inductive PyVal where
  | str (s : PyStr)
  | int (n : Int)
  | pynone
deriving DecidableEq

/-- A parameter mapping (Python dict of request parameters), embedded as an
association list with at most one binding per key. -/
abbrev ParamMap := List (PyStr × PyVal)

/-- Python dict key lookup. -/
def ParamMap.get? (m : ParamMap) (k : PyStr) : Option PyVal :=
  match m with
  | [] => Option.none
  | kv :: t => if kv.1 = k then Option.some kv.2 else ParamMap.get? t k

/-- Python dict update with a single key: the key is now bound to the value,
all other bindings are unchanged.  (Python dicts are unordered maps; the
binding order of the association list is not observable.) -/
def ParamMap.update (m : ParamMap) (k : PyStr) (v : PyVal) : ParamMap :=
  (k, v) :: m.filter (fun kv => decide (kv.1 ≠ k))

/-- The Python exceptions that the embedded code can raise.  TweepyError is
the single library error type of the source; the others are built-in Python
exceptions that escape from the code under specific inputs. -/
inductive PyExn where
  | tweepyError (msg : PyStr)
  | typeError (msg : PyStr)
  | nameError (missing : PyStr)
  | attributeError (msg : PyStr)
deriving DecidableEq

/-- The response parser interface (tweepy.parsers.Parser): declares supported
response formats, parses a successful body into a structured value of type
alpha, and extracts an error message from an error body. -/
structure Parser (α : Type) where
  supports_format : PyStr → Bool
  parse_content : Bytes → α
  parse_error : Bytes → PyStr

/-- An HTTP response as the requests library hands it back: status code and
raw body content. -/
structure HttpResponse where
  status_code : Nat
  content : Bytes
deriving DecidableEq

/-- File attachments: field name mapped to (filename, byte content).  A
file-like object is represented by the bytes the transport would read
from it. -/
abbrev Files := List (PyStr × PyStr × Bytes)

/-- The transport collaborator (requests session.request): given method, final
URL, parameter dict and optional file attachments, either raises a
requests.exceptions.RequestException (represented by its message, the str of
the exception) or returns an HTTP response.  Connection, TLS, timeout and DNS
failures are all RequestException values per the requests contract. -/
abbrev Transport := PyStr → PyStr → ParamMap → Option Files → Except PyStr HttpResponse

/-- The value a request returns: either the structured value produced by the
parser or the raw body bytes. -/
inductive ReqValue (α : Type) where
  | parsed (v : α)
  | raw (content : Bytes)
deriving DecidableEq

/-- The observable data of one dispatched HTTP call. -/
structure DispatchCall where
  method : PyStr
  url : PyStr
  path : PyStr
  subdomain : PyStr
  params : ParamMap
  files : Option Files

/-- Observable events of one Client.request execution. -/
inductive Event where
  | dispatched (call : DispatchCall)
  | parseContent (input : Bytes)
  | parseError (input : Bytes)

/-- Result of one Client.request execution: the returned value or raised
exception, together with the trace of observable events in order. -/
structure RequestResult (α : Type) where
  result : Except PyExn (ReqValue α)
  events : List Event

/- ===== Python 2 urlparse.urljoin model =====

The source joins the base URL with the endpoint path via urlparse.urljoin
from the Python 2 standard library.  That function is not part of this
repository; the spec describes the step only as standard URL-join semantics.
The model below follows the CPython 2.7 urlparse implementation: urlsplit
(scheme detection with the http fast path and the port-number quirk, netloc
up to the first slash, question mark or hash, the fragment split at the
first hash, the query split at the first question mark), urlparse (the
parameter split from the last path segment for the uses_params schemes),
the uses_relative and uses_netloc scheme lists, the dot-segment resolution
loop of urljoin, and urlunparse with urlunsplit for reassembly.  The one
part left out is the IPv6 bracket validation of urlsplit, which raises
ValueError for a netloc holding an unbalanced square bracket; the template
theorem below therefore excludes square brackets from the subdomain and
host inputs it quantifies over. -/

/-- Characters allowed in a URL scheme (urlparse.scheme_chars). -/
def schemeChars : PyStr :=
  pystr ("abcdefghijklmnopqrstuvwxyzABCDEFGHIJKLMNOPQRSTUVWXYZ0123456789+-.")

/-- Lowercase a string character by character (Python str.lower on ASCII). -/
def toLowerStr (s : PyStr) : PyStr := s.map Char.toLower

/-- Split a string at the first occurrence of a separator character:
some (before, after), or none when the separator does not occur (Python
str.find followed by slicing, or str.split with one split). -/
def splitAtChar (sep : Char) : PyStr → Option (PyStr × PyStr)
  | [] => Option.none
  | ch :: s =>
    if ch = sep then Option.some ([], s)
    else
      match splitAtChar sep s with
      | Option.some pr => Option.some (ch :: pr.1, pr.2)
      | Option.none => Option.none

/-- Split a string at the last occurrence of a separator character:
some (before, after), or none when the separator does not occur (Python
str.rfind followed by slicing). -/
def splitAtLastChar (sep : Char) (s : PyStr) : Option (PyStr × PyStr) :=
  match splitAtChar sep s.reverse with
  | Option.some pr => Option.some (pr.2.reverse, pr.1.reverse)
  | Option.none => Option.none

/-- Scheme detection of Python 2 urlsplit: the exact string http before the
first colon is always taken as the scheme (the optimised common case of the
source); otherwise a scheme is recognised when the colon occurs at a
positive position, every character before it is a scheme character, and the
rest is empty or not purely digits (so that host:port is not mistaken for a
scheme), and the recognised scheme is lowercased. -/
def parseSchemeSplit (s : PyStr) : Option (PyStr × PyStr) :=
  match splitAtChar ':' s with
  | Option.some pr =>
    if pr.1 = pystr ("http") then Option.some (pystr ("http"), pr.2)
    else if pr.1 ≠ [] ∧ pr.1.all (fun ch => decide (ch ∈ schemeChars)) = true
        ∧ (pr.2 = [] ∨ pr.2.any (fun ch => decide (¬ ch.isDigit)) = true)
    then Option.some (toLowerStr pr.1, pr.2) else Option.none
  | Option.none => Option.none

/-- Netloc detection of Python 2 urlsplit: after a leading double slash the
netloc extends to the first slash, question mark or hash (the delimiters of
the internal netloc splitting helper). -/
def splitNetloc (s : PyStr) : PyStr × PyStr :=
  if s.take 2 = pystr ("//") then
    ((s.drop 2).takeWhile (fun ch => decide (ch ≠ '/' ∧ ch ≠ '?' ∧ ch ≠ '#')),
     (s.drop 2).dropWhile (fun ch => decide (ch ≠ '/' ∧ ch ≠ '?' ∧ ch ≠ '#')))
  else ([], s)

/-- The six URL components of Python 2 urlparse. -/
structure UrlParts where
  scheme : PyStr
  netloc : PyStr
  path : PyStr
  params : PyStr
  query : PyStr
  fragment : PyStr
deriving DecidableEq

/-- Python 2 urlsplit with fragments allowed, as urljoin calls it: scheme
detection with a default, netloc detection, then the fragment split at the
first hash and the query split at the first question mark of what remains.
The params component is left empty for urlparse to fill. -/
def urlsplitM (dflt : PyStr) (s : PyStr) : UrlParts :=
  let sr := match parseSchemeSplit s with
    | Option.some pr => pr
    | Option.none => (dflt, s)
  let nr := splitNetloc sr.2
  let fr := match splitAtChar '#' nr.2 with
    | Option.some pr => pr
    | Option.none => (nr.2, [])
  let qr := match splitAtChar '?' fr.1 with
    | Option.some pr => pr
    | Option.none => (fr.1, [])
  { scheme := sr.1, netloc := nr.1, path := qr.1, params := [],
    query := qr.2, fragment := fr.2 }

/-- Schemes whose URLs carry parameters (urlparse.uses_params). -/
def uses_params : List PyStr :=
  [pystr ("ftp"), pystr ("hdl"), pystr ("prospero"), pystr ("http"),
   pystr ("imap"), pystr ("https"), pystr ("shttp"), pystr ("rtsp"),
   pystr ("rtspu"), pystr ("sip"), pystr ("sips"), pystr ("mms"),
   pystr (""), pystr ("sftp")]

/-- The parameter split of Python 2 urlparse: the part after the first
semicolon of the last path segment, that is the first semicolon after the
last slash when the path has a slash and the first semicolon of the whole
path otherwise; no split when that segment has no semicolon. -/
def splitParams (url : PyStr) : PyStr × PyStr :=
  match splitAtLastChar '/' url with
  | Option.some pr =>
    match splitAtChar ';' pr.2 with
    | Option.some qq => (pr.1 ++ '/' :: qq.1, qq.2)
    | Option.none => (url, [])
  | Option.none =>
    match splitAtChar ';' url with
    | Option.some qq => (qq.1, qq.2)
    | Option.none => (url, [])

/-- Python 2 urlparse: urlsplit followed by the parameter split, applied for
schemes that use parameters when the path holds a semicolon. -/
def urlparseM (dflt : PyStr) (s : PyStr) : UrlParts :=
  let u := urlsplitM dflt s
  if u.scheme ∈ uses_params ∧ ';' ∈ u.path then
    let pp := splitParams u.path
    { u with path := pp.1, params := pp.2 }
  else u

/-- Schemes for which relative joining is defined (urlparse.uses_relative). -/
def uses_relative : List PyStr :=
  [pystr ("ftp"), pystr ("http"), pystr ("gopher"), pystr ("nntp"),
   pystr ("imap"), pystr ("wais"), pystr ("file"), pystr ("https"),
   pystr ("shttp"), pystr ("mms"), pystr ("prospero"), pystr ("rtsp"),
   pystr ("rtspu"), pystr (""), pystr ("sftp"), pystr ("svn"),
   pystr ("svn+ssh")]

/-- Schemes that use a network location (urlparse.uses_netloc). -/
def uses_netloc : List PyStr :=
  [pystr ("ftp"), pystr ("http"), pystr ("gopher"), pystr ("nntp"),
   pystr ("telnet"), pystr ("imap"), pystr ("wais"), pystr ("file"),
   pystr ("mms"), pystr ("https"), pystr ("shttp"), pystr ("snews"),
   pystr ("prospero"), pystr ("rtsp"), pystr ("rtspu"), pystr ("rsync"),
   pystr (""), pystr ("svn"), pystr ("svn+ssh"), pystr ("sftp"),
   pystr ("nfs"), pystr ("git"), pystr ("git+ssh")]

/-- Python 2 urlunsplit: when a netloc is present or the path begins with a
double slash, prefix a double slash and the netloc (inserting a slash before
a non-empty path that does not already begin with one); then prefix the
scheme with a colon when there is one, and append the query after a question
mark and the fragment after a hash when they are non-empty. -/
def urlunsplitM (scheme netloc path query fragment : PyStr) : PyStr :=
  let url0 := if netloc ≠ [] ∨ (path ≠ [] ∧ path.take 2 = pystr ("//")) then
      pystr ("//") ++ netloc
        ++ (if path ≠ [] ∧ path.take 1 ≠ pystr ("/") then '/' :: path else path)
    else path
  let url1 := if scheme ≠ [] then scheme ++ pystr (":") ++ url0 else url0
  let url2 := if query ≠ [] then url1 ++ '?' :: query else url1
  if fragment ≠ [] then url2 ++ '#' :: fragment else url2

/-- Python 2 urlunparse: rejoin a non-empty params component to the path
with a semicolon, then urlunsplit. -/
def urlunparseM (scheme netloc path params query fragment : PyStr) : PyStr :=
  urlunsplitM scheme netloc
    (if params ≠ [] then path ++ ';' :: params else path) query fragment

/-- Python str.split on a single character: always returns at least one piece
(the match arm for an empty recursive result is unreachable). -/
def splitOnChar (c : Char) : PyStr → List PyStr
  | [] => [[]]
  | a :: s =>
    if a = c then [] :: splitOnChar c s
    else
      match splitOnChar c s with
      | [] => [[a]]
      | t :: ts => (a :: t) :: ts

/-- Python str.join with a single-character separator. -/
def joinChar (c : Char) : List PyStr → PyStr
  | [] => []
  | [x] => x
  | x :: xs => x ++ c :: joinChar c xs

/-- If the last path segment is a lone dot, blank it (first fixup of the
urljoin segment loop). -/
def fixLastDot (segs : List PyStr) : List PyStr :=
  if segs.getLast? = Option.some (pystr (".")) then segs.dropLast ++ [[]]
  else segs

/-- One step of the urljoin dot-dot resolution loop: find the first position
i with 1 <= i <= n-2 whose segment is a double dot preceded by a segment that
is neither empty nor a double dot, and delete both; none when no such
position exists. -/
def ddStep : List PyStr → Option (List PyStr)
  | a :: b :: c :: rest =>
    if b = pystr ("..") ∧ a ≠ [] ∧ a ≠ pystr ("..")
    then Option.some (c :: rest)
    else
      match ddStep (b :: c :: rest) with
      | Option.some r => Option.some (a :: r)
      | Option.none => Option.none
  | _ => Option.none

/-- The urljoin dot-dot loop, driven by a fuel counter.  Each successful step
removes two segments, so the segment count bounds the number of iterations;
running the loop with that much fuel is exactly the Python while loop. -/
def ddLoopFuel : Nat → List PyStr → List PyStr
  | 0, segs => segs
  | Nat.succ n, segs =>
    match ddStep segs with
    | Option.some r => ddLoopFuel n r
    | Option.none => segs

/-- The urljoin dot-dot resolution loop. -/
def ddLoop (segs : List PyStr) : List PyStr := ddLoopFuel segs.length segs

/-- Final fixups of the urljoin segment algorithm for a trailing double
dot. -/
def finalFix (segs : List PyStr) : List PyStr :=
  if segs = [[], pystr ("..")] then [[], []]
  else if 2 ≤ segs.length ∧ segs.getLast? = Option.some (pystr ("..")) then
    segs.dropLast.dropLast ++ [[]]
  else segs

/-- Python 2 urlparse.urljoin, following the CPython 2.7 control flow:
trivial cases for empty arguments, parse both URLs, give up on a scheme
change, adopt an explicit netloc, keep an absolute path, keep the base path
and params (and the base query when the url carries none) for an empty
relative url, and otherwise resolve dot segments over the concatenation of
the base path prefix and the relative path, reassembling with the url
params, query and fragment. -/
def urljoinM (base url : PyStr) : PyStr :=
  if base = [] then url
  else if url = [] then base
  else
    let b := urlparseM [] base
    let u := urlparseM b.scheme url
    if u.scheme ≠ b.scheme ∨ u.scheme ∉ uses_relative then url
    else if u.scheme ∈ uses_netloc ∧ u.netloc ≠ [] then
      urlunparseM u.scheme u.netloc u.path u.params u.query u.fragment
    else
      let netloc := if u.scheme ∈ uses_netloc then b.netloc else u.netloc
      if u.path.take 1 = pystr ("/") then
        urlunparseM u.scheme netloc u.path u.params u.query u.fragment
      else if u.path = [] ∧ u.params = [] then
        let query := if u.query = [] then b.query else u.query
        urlunparseM u.scheme netloc b.path b.params query u.fragment
      else
        let segs0 := (splitOnChar '/' b.path).dropLast ++ splitOnChar '/' u.path
        let segs1 := (fixLastDot segs0).filter (fun s => decide (s ≠ pystr (".")))
        let segs2 := finalFix (ddLoop segs1)
        urlunparseM u.scheme netloc (joinChar '/' segs2) u.params u.query u.fragment

/- ===== The Client (src/tweepy/client.py) ===== -/

/-- The scheme selected by the secure flag: https when secure, else http. -/
def schemeOf (secure : Bool) : PyStr :=
  if secure then pystr ("https") else pystr ("http")

/-- The base URL template computed in the constructor.  The Python source
stores the percent-format string scheme://%s.host/version/ whose single
remaining slot receives the subdomain in Client.request; the shallow
embedding represents that one-slot format string as a substitution
function.  This embedding is exact for host and API version strings without
a percent sign; a percent sign inside them would change the number of slots
and make the percent operators of the source raise instead, so the URL
template theorem below quantifies only over percent-free hosts and
versions. -/
def mkBaseUrl (secure : Bool) (host api_version : PyStr) : PyStr → PyStr :=
  fun subdomain =>
    schemeOf secure ++ pystr ("://") ++ subdomain ++ pystr (".") ++ host
      ++ pystr ("/") ++ api_version ++ pystr ("/")

/-- The client state set up by the constructor: the base URL template, the
requests session (carrying the authentication it was created with), the
parser and the response format. -/
structure Client (α : Type) where
  base_url : PyStr → PyStr
  session : Transport
  parser : Option (Parser α)
  response_format : PyStr

/-- Client.init embeds Client.__init__: compute the base URL template from
the secure flag, host and API version, create the session (the transport
collaborator, carrying auth, stands in for requests.session), check that the
parser supports the response format (raising TweepyError otherwise, with the
message of line 38 of the source), and store parser and response format.
Passing parser as None makes the support check itself raise an
AttributeError, as attribute access on None does in Python. -/
def Client.init {α : Type} (session : Transport) (host : PyStr) (secure : Bool)
    (api_version : PyStr) (parser : Option (Parser α)) (response_format : PyStr) :
    Except PyExn (Client α) :=
  let base_url := mkBaseUrl secure host api_version
  match parser with
  | Option.none =>
    Except.error (PyExn.attributeError
      (pystr ("NoneType object has no attribute supports_format")))
  | Option.some p =>
    if p.supports_format response_format = false then
      Except.error (PyExn.tweepyError
        (pystr ("Parse does not support response format: ") ++ response_format))
    else
      Except.ok { base_url := base_url, session := session,
                  parser := Option.some p, response_format := response_format }

/-- Lines 50 and 51 of Client.request: substitute the subdomain into the base
URL template, join with the endpoint path, and append a dot and the response
format. -/
def Client.buildUrl {α : Type} (c : Client α) (url subdomain : PyStr) : PyStr :=
  let base_url := c.base_url subdomain
  urljoinM base_url url ++ pystr (".") ++ c.response_format

/-- The dict(parameters) conversion on line 54 of the source: a dict argument
is copied, while the default None raises TypeError, since None is not
iterable. -/
def dictConvert (parameters : Option ParamMap) : Except PyExn ParamMap :=
  match parameters with
  | Option.none =>
    Except.error (PyExn.typeError (pystr ("NoneType object is not iterable")))
  | Option.some m => Except.ok m

/-- Client.request: build the URL, convert the parameters to a dict (the
TypeError raised for the default None is not a RequestException, so the
except clause does not catch it and no dispatch happens), dispatch through
the session (a RequestException is rewrapped into TweepyError with the
Request error prefix), treat any status other than 200 as an API failure
whose message comes from parse_error with the API error prefix, and on 200
parse a non-empty body with parse_content, returning the raw content when
the body is empty or the parser is absent. -/
def Client.request {α : Type} (c : Client α) (method url : PyStr)
    (parameters : Option ParamMap) (files : Option Files) (subdomain : PyStr) :
    RequestResult α :=
  let full_url := c.buildUrl url subdomain
  match dictConvert parameters with
  | Except.error e => { result := Except.error e, events := [] }
  | Except.ok params =>
    let call : DispatchCall :=
      { method := method, url := full_url, path := url, subdomain := subdomain,
        params := params, files := files }
    match c.session method full_url params files with
    | Except.error e =>
      { result := Except.error (PyExn.tweepyError (pystr ("Request error: ") ++ e)),
        events := [Event.dispatched call] }
    | Except.ok r =>
      if r.status_code ≠ 200 then
        match c.parser with
        | Option.none =>
          { result := Except.error (PyExn.attributeError
              (pystr ("NoneType object has no attribute parse_error"))),
            events := [Event.dispatched call] }
        | Option.some p =>
          { result := Except.error (PyExn.tweepyError
              (pystr ("API error: ") ++ p.parse_error r.content)),
            events := [Event.dispatched call, Event.parseError r.content] }
      else
        match c.parser with
        | Option.some p =>
          if r.content.length > 0 then
            { result := Except.ok (ReqValue.parsed (p.parse_content r.content)),
              events := [Event.dispatched call, Event.parseContent r.content] }
          else
            { result := Except.ok (ReqValue.raw r.content),
              events := [Event.dispatched call] }
        | Option.none =>
          { result := Except.ok (ReqValue.raw r.content),
            events := [Event.dispatched call] }

/-- The local names bound in the body of Client.home_timeline: the method
receives self and its keyword parameters. -/
def homeTimelineLocals : List PyStr := [pystr ("self"), pystr ("parameters")]

/-- Python name resolution for an identifier appearing in an expression:
evaluating a name that is bound in no enclosing scope raises NameError. -/
def evalName (locals : List PyStr) (n : PyStr) : Except PyExn PyStr :=
  if n ∈ locals then Except.ok n else Except.error (PyExn.nameError n)

/-- Client.home_timeline: the source (line 73) passes the misspelled name
paramters, bound nowhere, as the parameters argument.  Evaluating the
arguments of the delegation resolves that name first, so every call raises
NameError before Client.request runs; the ok branch shows the delegation
that would follow if the name resolved. -/
def Client.home_timeline {α : Type} (c : Client α) (parameters : ParamMap) :
    RequestResult α :=
  match evalName homeTimelineLocals (pystr ("paramters")) with
  | Except.error e => { result := Except.error e, events := [] }
  | Except.ok _ =>
    c.request (pystr ("GET")) (pystr ("statuses/home_timeline"))
      (Option.some parameters) Option.none (pystr ("api"))

/-- The media argument of Client.update_status: absent (None), a file system
path (a str), or a tuple of filename and file-like object, the latter
represented by the bytes the transport would read from it. -/
inductive Media where
  | none
  | path (p : PyStr)
  | tup (filename : PyStr) (content : Bytes)

/-- Client.update_status: set the status key of the parameter mapping, turn a
path given as media into a (path, opened file) tuple using the file system
(embedded as a map from paths to byte contents), and delegate: with a tuple,
POST to statuses/update_with_media on the upload subdomain with the
attachment under the field name of line 230 of the source; otherwise POST to
statuses/update with the default subdomain api and no files. -/
def Client.update_status {α : Type} (c : Client α) (fs : PyStr → Bytes)
    (status : PyVal) (media : Media) (parameters : ParamMap) : RequestResult α :=
  let parameters2 := ParamMap.update parameters (pystr ("status")) status
  let media2 := match media with
    | Media.path p => Media.tup p (fs p)
    | m => m
  match media2 with
  | Media.tup filename content =>
    c.request (pystr ("POST")) (pystr ("statuses/update_with_media"))
      (Option.some parameters2)
      (Option.some [(pystr ("media[]"), filename, content)]) (pystr ("upload"))
  | _ =>
    c.request (pystr ("POST")) (pystr ("statuses/update"))
      (Option.some parameters2) Option.none (pystr ("api"))

/-- Spec-side definition for the round-trip claim: the value the parser would
independently produce from the same bytes, by direct use of its
content-parsing capability. -/
def specDirectParse {α : Type} (p : Parser α) (body : Bytes) : α :=
  p.parse_content body

/- ===== Concrete instances for witnesses and counterexamples ===== -/

/-- A concrete parser over Nat: supports only the json format, parses a body
to its length, extracts a fixed error message. -/
def natParser : Parser Nat :=
  { supports_format := fun f => decide (f = pystr ("json"))
  , parse_content := fun b => b.length
  , parse_error := fun _ => pystr ("oops") }

/-- A transport that always succeeds with a fixed response. -/
def okTransport (r : HttpResponse) : Transport := fun _ _ _ _ => Except.ok r

/-- A transport that always raises a RequestException with a fixed message. -/
def errTransport (e : PyStr) : Transport := fun _ _ _ _ => Except.error e

/-- A concrete client for closed witness statements. -/
def clientW : Client Nat :=
  { base_url := mkBaseUrl true (pystr ("twitter.com")) (pystr ("1"))
  , session := okTransport { status_code := 200, content := [] }
  , parser := Option.some natParser
  , response_format := pystr ("json") }

/-- A concrete client whose transport always answers with the given status
code and the given one response body, for closed witness statements. -/
def clientResp (code : Nat) (body : Bytes) : Client Nat :=
  { base_url := mkBaseUrl true (pystr ("twitter.com")) (pystr ("1"))
  , session := okTransport { status_code := code, content := body }
  , parser := Option.some natParser
  , response_format := pystr ("json") }

/- ===== Helper lemmas about the urljoin model ===== -/

theorem splitAtChar_of_not_mem (c : Char) (s : PyStr) (h : c ∉ s) :
    splitAtChar c s = Option.none := by
  induction s with
  | nil => rfl
  | cons a t ih =>
    have ha : a ≠ c := fun e => h (e ▸ List.mem_cons_self a t)
    have ht : c ∉ t := fun m => h (List.mem_cons_of_mem a m)
    simp [splitAtChar, ha, ih ht]

theorem splitAtChar_append (c : Char) (pre rest : PyStr) (h : c ∉ pre) :
    splitAtChar c (pre ++ c :: rest) = Option.some (pre, rest) := by
  induction pre with
  | nil => simp [splitAtChar]
  | cons a t ih =>
    have ha : a ≠ c := fun e => h (e ▸ List.mem_cons_self a t)
    have ht : c ∉ t := fun m => h (List.mem_cons_of_mem a m)
    simp [splitAtChar, ha, ih ht]

theorem parseSchemeSplit_append (scheme rest : PyStr)
    (hs1 : scheme ≠ []) (hs2 : ':' ∉ scheme)
    (hsA : scheme.all (fun ch => decide (ch ∈ schemeChars)) = true)
    (hsL : toLowerStr scheme = scheme)
    (hrest : rest.any (fun ch => decide (¬ ch.isDigit)) = true) :
    parseSchemeSplit (scheme ++ ':' :: rest) = Option.some (scheme, rest) := by
  simp only [parseSchemeSplit, splitAtChar_append ':' scheme rest hs2]
  by_cases hfast : scheme = pystr ("http")
  · simp [hfast]
  · simp [hfast, hs1, hsA, hsL, hrest]
    intro h
    simpa using hrest

theorem takeWhile_append_of_all (p : Char → Bool) (xs ys : PyStr)
    (h : ∀ a ∈ xs, p a = true) :
    (xs ++ ys).takeWhile p = xs ++ ys.takeWhile p := by
  induction xs with
  | nil => simp
  | cons a t ih =>
    have ha : p a = true := h a (List.mem_cons_self a t)
    have ht : ∀ b ∈ t, p b = true := fun b m => h b (List.mem_cons_of_mem a m)
    simp [List.takeWhile_cons, ha, ih ht]

theorem dropWhile_append_of_all (p : Char → Bool) (xs ys : PyStr)
    (h : ∀ a ∈ xs, p a = true) :
    (xs ++ ys).dropWhile p = ys.dropWhile p := by
  induction xs with
  | nil => simp
  | cons a t ih =>
    have ha : p a = true := h a (List.mem_cons_self a t)
    have ht : ∀ b ∈ t, p b = true := fun b m => h b (List.mem_cons_of_mem a m)
    simp [List.dropWhile_cons, ha, ih ht]

theorem splitOnChar_ne_nil (c : Char) (s : PyStr) : splitOnChar c s ≠ [] := by
  cases s with
  | nil => simp [splitOnChar]
  | cons a t =>
    simp only [splitOnChar]
    by_cases hac : a = c
    · simp [hac]
    · simp only [hac, if_false]
      cases splitOnChar c t <;> simp

theorem splitOnChar_of_not_mem (c : Char) (s : PyStr) (h : c ∉ s) :
    splitOnChar c s = [s] := by
  induction s with
  | nil => rfl
  | cons a t ih =>
    have ha : a ≠ c := fun e => h (e ▸ List.mem_cons_self a t)
    have ht : c ∉ t := fun m => h (List.mem_cons_of_mem a m)
    simp [splitOnChar, ha, ih ht]

theorem splitOnChar_append (c : Char) (xs ys : PyStr) (h : c ∉ xs) :
    splitOnChar c (xs ++ c :: ys) = xs :: splitOnChar c ys := by
  induction xs with
  | nil => simp [splitOnChar]
  | cons a t ih =>
    have ha : a ≠ c := fun e => h (e ▸ List.mem_cons_self a t)
    have ht : c ∉ t := fun m => h (List.mem_cons_of_mem a m)
    simp [splitOnChar, ha, ih ht]

theorem joinChar_cons_of_ne_nil (c : Char) (x : PyStr) (l : List PyStr)
    (h : l ≠ []) : joinChar c (x :: l) = x ++ c :: joinChar c l := by
  cases l with
  | nil => exact absurd rfl h
  | cons y ys => rfl

theorem joinChar_splitOnChar (c : Char) (s : PyStr) :
    joinChar c (splitOnChar c s) = s := by
  induction s with
  | nil => rfl
  | cons a t ih =>
    by_cases hac : a = c
    · subst hac
      have hne := splitOnChar_ne_nil a t
      rw [show splitOnChar a (a :: t) = [] :: splitOnChar a t by simp [splitOnChar]]
      rw [joinChar_cons_of_ne_nil a [] _ hne]
      simp [ih]
    · obtain ⟨u, us, hu⟩ := List.exists_cons_of_ne_nil (splitOnChar_ne_nil c t)
      simp only [splitOnChar, hac, if_false, hu]
      cases us with
      | nil =>
        have : joinChar c [u] = t := by rw [← hu]; exact ih
        simpa [joinChar] using this
      | cons v vs =>
        have hj : joinChar c (u :: v :: vs) = t := by rw [← hu]; exact ih
        have : joinChar c ((a :: u) :: v :: vs)
            = (a :: u) ++ c :: joinChar c (v :: vs) :=
          joinChar_cons_of_ne_nil c (a :: u) (v :: vs) (by simp)
        rw [this]
        have hj2 : u ++ c :: joinChar c (v :: vs) = t := by
          rw [← hj]
          exact (joinChar_cons_of_ne_nil c u (v :: vs) (by simp)).symm
        simp [← hj2]

theorem ddStep_eq_none (segs : List PyStr)
    (h : ∀ s ∈ segs, s ≠ pystr ("..")) : ddStep segs = Option.none := by
  induction segs with
  | nil => rfl
  | cons a l ih =>
    cases l with
    | nil => rfl
    | cons b m =>
      cases m with
      | nil => rfl
      | cons c2 rest =>
        have hb : b ≠ pystr ("..") :=
          h b (List.mem_cons_of_mem a (List.mem_cons_self b _))
        have hl : ∀ s ∈ b :: c2 :: rest, s ≠ pystr ("..") :=
          fun s m2 => h s (List.mem_cons_of_mem a m2)
        simp [ddStep, hb, ih hl]

theorem ddLoopFuel_of_none (n : Nat) (segs : List PyStr)
    (h : ddStep segs = Option.none) : ddLoopFuel n segs = segs := by
  cases n with
  | zero => rfl
  | succ k => simp [ddLoopFuel, h]

theorem filter_eq_self_of_all {β : Type} (p : β → Bool) (l : List β)
    (h : ∀ a ∈ l, p a = true) : l.filter p = l := by
  induction l with
  | nil => rfl
  | cons a t ih =>
    have ha : p a = true := h a (List.mem_cons_self a t)
    have ht : ∀ b ∈ t, p b = true := fun b m => h b (List.mem_cons_of_mem a m)
    simp [List.filter_cons, ha, ih ht]

theorem urlparseM_base (dflt scheme sub host tail : PyStr)
    (hs1 : scheme ≠ []) (hs2 : ':' ∉ scheme)
    (hsA : scheme.all (fun ch => decide (ch ∈ schemeChars)) = true)
    (hsL : toLowerStr scheme = scheme)
    (hsub : ∀ a ∈ sub, a ≠ '/' ∧ a ≠ '?' ∧ a ≠ '#')
    (hhost : ∀ a ∈ host, a ≠ '/' ∧ a ≠ '?' ∧ a ≠ '#')
    (hq : '?' ∉ tail) (hh : '#' ∉ tail) (hsemi : ';' ∉ tail) :
    urlparseM dflt (scheme ++ ':' :: '/' :: '/' :: (sub ++ '.' :: (host ++ '/' :: tail)))
      = { scheme := scheme, netloc := sub ++ '.' :: host, path := '/' :: tail,
          params := [], query := [], fragment := [] } := by
  have hrest : ('/' :: '/' :: (sub ++ '.' :: (host ++ '/' :: tail))).any
      (fun ch => decide (¬ ch.isDigit)) = true := by
    simp [List.any_cons]
  have hscheme := parseSchemeSplit_append scheme
    ('/' :: '/' :: (sub ++ '.' :: (host ++ '/' :: tail))) hs1 hs2 hsA hsL hrest
  have hsubt : ∀ a ∈ sub,
      (fun ch => decide (ch ≠ '/' ∧ ch ≠ '?' ∧ ch ≠ '#')) a = true := by
    intro a ha
    simpa using hsub a ha
  have hhostt : ∀ a ∈ host,
      (fun ch => decide (ch ≠ '/' ∧ ch ≠ '?' ∧ ch ≠ '#')) a = true := by
    intro a ha
    simpa using hhost a ha
  have htake : (sub ++ '.' :: (host ++ '/' :: tail)).takeWhile
      (fun ch => decide (ch ≠ '/' ∧ ch ≠ '?' ∧ ch ≠ '#')) = sub ++ '.' :: host := by
    rw [takeWhile_append_of_all _ _ _ hsubt]
    simp only [List.takeWhile_cons]
    rw [takeWhile_append_of_all _ _ _ hhostt]
    simp [List.takeWhile_cons]
  have hdrop : (sub ++ '.' :: (host ++ '/' :: tail)).dropWhile
      (fun ch => decide (ch ≠ '/' ∧ ch ≠ '?' ∧ ch ≠ '#')) = '/' :: tail := by
    rw [dropWhile_append_of_all _ _ _ hsubt]
    simp only [List.dropWhile_cons]
    rw [if_pos (by simp)]
    rw [dropWhile_append_of_all _ _ _ hhostt]
    simp [List.dropWhile_cons]
  have hns : splitNetloc ('/' :: '/' :: (sub ++ '.' :: (host ++ '/' :: tail)))
      = (sub ++ '.' :: host, '/' :: tail) := by
    simp [splitNetloc, pystr]
    exact ⟨by simpa using htake, by simpa using hdrop⟩
  have hfr : ('#' : Char) ∉ ('/' : Char) :: tail := by
    intro m
    rcases List.mem_cons.mp m with e | m2
    · exact absurd e (by decide)
    · exact hh m2
  have hqr : ('?' : Char) ∉ ('/' : Char) :: tail := by
    intro m
    rcases List.mem_cons.mp m with e | m2
    · exact absurd e (by decide)
    · exact hq m2
  have hsr : (';' : Char) ∉ ('/' : Char) :: tail := by
    intro m
    rcases List.mem_cons.mp m with e | m2
    · exact absurd e (by decide)
    · exact hsemi m2
  have hsplit : urlsplitM dflt
      (scheme ++ ':' :: '/' :: '/' :: (sub ++ '.' :: (host ++ '/' :: tail)))
      = { scheme := scheme, netloc := sub ++ '.' :: host, path := '/' :: tail,
          params := [], query := [], fragment := [] } := by
    simp only [urlsplitM, hscheme, hns, splitAtChar_of_not_mem '#' _ hfr,
      splitAtChar_of_not_mem '?' _ hqr]
  simp only [urlparseM, hsplit]
  rw [if_neg (fun hcon => hsr hcon.2)]

theorem urlparseM_plain (dflt path : PyStr) (h1 : ':' ∉ path)
    (hq : '?' ∉ path) (hh : '#' ∉ path) (hsemi : ';' ∉ path)
    (h2 : path.take 2 ≠ pystr ("//")) :
    urlparseM dflt path
      = { scheme := dflt, netloc := [], path := path, params := [],
          query := [], fragment := [] } := by
  have hsplit : urlsplitM dflt path
      = { scheme := dflt, netloc := [], path := path, params := [],
          query := [], fragment := [] } := by
    simp [urlsplitM, parseSchemeSplit, splitAtChar_of_not_mem ':' path h1,
      splitAtChar_of_not_mem '#' path hh, splitAtChar_of_not_mem '?' path hq,
      splitNetloc, h2]
  simp only [urlparseM, hsplit]
  rw [if_neg (fun hcon => hsemi hcon.2)]

theorem urljoinM_eval (base url bsch bnet bpath : PyStr)
    (hbase : base ≠ []) (hurl : url ≠ [])
    (hb : urlparseM [] base
      = { scheme := bsch, netloc := bnet, path := bpath, params := [],
          query := [], fragment := [] })
    (hu : urlparseM bsch url
      = { scheme := bsch, netloc := [], path := url, params := [],
          query := [], fragment := [] })
    (hR : bsch ∈ uses_relative) (hN : bsch ∈ uses_netloc)
    (h1 : url.take 1 ≠ pystr ("/")) :
    urljoinM base url
      = urlunparseM bsch bnet (joinChar '/' (finalFix (ddLoop
          ((fixLastDot ((splitOnChar '/' bpath).dropLast ++ splitOnChar '/' url)).filter
            (fun s => decide (s ≠ pystr (".")))))))
          [] [] [] := by
  simp only [urljoinM, hb, hu]
  simp [hbase, hurl, hR, hN, h1]

theorem urljoinM_template (scheme sub host ver path : PyStr)
    (hs1 : scheme ≠ []) (hs2 : ':' ∉ scheme)
    (hsA : scheme.all (fun ch => decide (ch ∈ schemeChars)) = true)
    (hsL : toLowerStr scheme = scheme)
    (hsR : scheme ∈ uses_relative) (hsN : scheme ∈ uses_netloc)
    (hsub : ∀ a ∈ sub, a ≠ '/' ∧ a ≠ '?' ∧ a ≠ '#')
    (hhost : ∀ a ∈ host, a ≠ '/' ∧ a ≠ '?' ∧ a ≠ '#')
    (hv1 : '/' ∉ ver) (hv2 : '.' ∉ ver)
    (hvq : '?' ∉ ver) (hvh : '#' ∉ ver) (hvs : ';' ∉ ver)
    (hp0 : path ≠ []) (hp1 : ':' ∉ path)
    (hpq : '?' ∉ path) (hph : '#' ∉ path) (hps : ';' ∉ path)
    (hp2 : path.take 1 ≠ pystr ("/"))
    (hp3 : ∀ seg ∈ splitOnChar '/' path, seg ≠ pystr (".") ∧ seg ≠ pystr ("..")) :
    urljoinM (scheme ++ ':' :: '/' :: '/' :: (sub ++ '.' :: (host ++ '/' :: (ver ++ ['/'])))) path
      = scheme ++ ':' :: '/' :: '/' :: (sub ++ '.' :: (host ++ '/' :: (ver ++ '/' :: path))) := by
  obtain ⟨p0, pt, hpe⟩ := List.exists_cons_of_ne_nil hp0
  have hp0slash : p0 ≠ '/' := by
    intro e
    apply hp2
    rw [hpe, e]
    rfl
  have htake2 : path.take 2 ≠ pystr ("//") := by
    have e1 : pystr ("//") = '/' :: '/' :: [] := rfl
    rw [hpe, e1]
    cases pt with
    | nil => simp [List.take]
    | cons p1 pt2 => simp [List.take, hp0slash]
  have hu : urlparseM scheme path
      = { scheme := scheme, netloc := [], path := path, params := [],
          query := [], fragment := [] } :=
    urlparseM_plain scheme path hp1 hpq hph hps htake2
  have htailq : '?' ∉ ver ++ ['/'] := by
    intro m
    rcases List.mem_append.mp m with m1 | m2
    · exact hvq m1
    · simp at m2
  have htailh : '#' ∉ ver ++ ['/'] := by
    intro m
    rcases List.mem_append.mp m with m1 | m2
    · exact hvh m1
    · simp at m2
  have htails : ';' ∉ ver ++ ['/'] := by
    intro m
    rcases List.mem_append.mp m with m1 | m2
    · exact hvs m1
    · simp at m2
  have hb := urlparseM_base [] scheme sub host (ver ++ ['/'])
    hs1 hs2 hsA hsL hsub hhost htailq htailh htails
  have hbase_ne :
      scheme ++ ':' :: '/' :: '/' :: (sub ++ '.' :: (host ++ '/' :: (ver ++ ['/']))) ≠ [] := by
    simp
  have hsplitv : splitOnChar '/' (ver ++ ['/']) = [ver, []] := by
    have h := splitOnChar_append '/' ver [] hv1
    simpa [splitOnChar] using h
  have hsplitb : splitOnChar '/' ('/' :: (ver ++ ['/'])) = [[], ver, []] := by
    simp [splitOnChar, hsplitv]
  have hpne : splitOnChar '/' path ≠ [] := splitOnChar_ne_nil '/' path
  have hverdot : ver ≠ pystr (".") := by
    intro e
    apply hv2
    rw [e]
    exact List.mem_cons_self _ _
  have hverdd : ver ≠ pystr ("..") := by
    intro e
    apply hv2
    rw [e]
    exact List.mem_cons_self _ _
  have hlast : ([[], ver] ++ splitOnChar '/' path).getLast?
      = (splitOnChar '/' path).getLast? :=
    List.getLast?_append_of_ne_nil _ hpne
  obtain ⟨lastseg, hlastseg⟩ : ∃ a, (splitOnChar '/' path).getLast? = Option.some a := by
    cases hgl : (splitOnChar '/' path).getLast? with
    | none => exact absurd (List.getLast?_eq_none_iff.mp hgl) hpne
    | some a => exact ⟨a, rfl⟩
  have hlastmem : lastseg ∈ splitOnChar '/' path :=
    List.mem_of_getLast?_eq_some hlastseg
  have hlastdot : lastseg ≠ pystr (".") := (hp3 lastseg hlastmem).1
  have hlastdd : lastseg ≠ pystr ("..") := (hp3 lastseg hlastmem).2
  have hfix : fixLastDot ([[], ver] ++ splitOnChar '/' path)
      = [[], ver] ++ splitOnChar '/' path := by
    have hc : ([[], ver] ++ splitOnChar '/' path).getLast? ≠ Option.some (pystr (".")) := by
      rw [hlast, hlastseg]
      simpa using hlastdot
    simp only [fixLastDot]
    rw [if_neg hc]
  have hfilter : ([[], ver] ++ splitOnChar '/' path).filter
      (fun s => decide (s ≠ pystr ("."))) = [[], ver] ++ splitOnChar '/' path := by
    apply filter_eq_self_of_all
    intro s hs
    simp only [decide_eq_true_eq]
    rcases List.mem_append.mp hs with h | h
    · have : s = [] ∨ s = ver := by simpa using h
      rcases this with rfl | rfl
      · decide
      · exact hverdot
    · exact (hp3 s h).1
  have hdd : ddStep ([[], ver] ++ splitOnChar '/' path) = Option.none := by
    apply ddStep_eq_none
    intro s hs
    rcases List.mem_append.mp hs with h | h
    · have : s = [] ∨ s = ver := by simpa using h
      rcases this with rfl | rfl
      · decide
      · exact hverdd
    · exact (hp3 s h).2
  have hloop : ddLoop ([[], ver] ++ splitOnChar '/' path)
      = [[], ver] ++ splitOnChar '/' path :=
    ddLoopFuel_of_none _ _ hdd
  have hfinal : finalFix ([[], ver] ++ splitOnChar '/' path)
      = [[], ver] ++ splitOnChar '/' path := by
    have hc1 : [[], ver] ++ splitOnChar '/' path ≠ [[], pystr ("..")] := by
      intro h
      apply hpne
      have hlen := congrArg List.length h
      simp only [List.length_append, List.length_cons, List.length_nil] at hlen
      have hz : (splitOnChar '/' path).length = 0 := by omega
      exact List.length_eq_zero.mp hz
    have hc2 : ¬(2 ≤ ([[], ver] ++ splitOnChar '/' path).length
        ∧ ([[], ver] ++ splitOnChar '/' path).getLast? = Option.some (pystr (".."))) := by
      rintro ⟨-, h⟩
      rw [hlast, hlastseg] at h
      exact hlastdd (Option.some.inj h)
    simp only [finalFix]
    rw [if_neg hc1, if_neg hc2]
  have hjoin : joinChar '/' ([[], ver] ++ splitOnChar '/' path)
      = '/' :: (ver ++ '/' :: path) := by
    rw [show ([[], ver] ++ splitOnChar '/' path) = [] :: ver :: splitOnChar '/' path by simp]
    rw [joinChar_cons_of_ne_nil _ _ _ (by simp)]
    rw [joinChar_cons_of_ne_nil _ _ _ hpne]
    rw [joinChar_splitOnChar]
    simp
  have hnet : sub ++ '.' :: host ≠ [] := by simp
  have hun : urlunparseM scheme (sub ++ '.' :: host) ('/' :: (ver ++ '/' :: path)) [] [] []
      = scheme ++ ':' :: '/' :: '/' :: (sub ++ '.' :: (host ++ '/' :: (ver ++ '/' :: path))) := by
    have e1 : pystr ("//") = ['/', '/'] := rfl
    have e2 : pystr (":") = [':'] := rfl
    have e3 : pystr ("/") = ['/'] := rfl
    simp [urlunparseM, urlunsplitM, hnet, hs1, e1, e2, e3, List.append_assoc]
  rw [urljoinM_eval _ _ _ _ _ hbase_ne hp0 hb hu hsR hsN hp2]
  rw [hsplitb]
  rw [show ([[], ver, ([] : PyStr)] : List PyStr).dropLast = [[], ver] by rfl]
  rw [hfix, hfilter, hloop, hfinal, hjoin, hun]

/-- Every Client.request execution whose parameters argument is a dict
dispatches exactly one HTTP call, recorded first in the event trace with the
method, built URL, path, subdomain, parameters and files it was given. -/
theorem request_events_head {α : Type} (c : Client α) (method url : PyStr)
    (params : ParamMap) (files : Option Files) (sub : PyStr) :
    (c.request method url (Option.some params) files sub).events.head?
      = Option.some (Event.dispatched
          { method := method, url := c.buildUrl url sub, path := url,
            subdomain := sub, params := params, files := files }) := by
  simp only [Client.request, dictConvert]
  cases c.session method (c.buildUrl url sub) params files with
  | error e => rfl
  | ok r =>
    by_cases h : r.status_code ≠ 200
    · cases hp : c.parser <;> simp [h, hp]
    · cases hp : c.parser with
      | none => simp [h, hp]
      | some p => by_cases hl : r.content.length > 0 <;> simp [h, hp, hl]

/- ===== Claim theorems ===== -/

/-- C1 counterexample: the claim quantifies over every relative path, but for
the relative path dot dot slash x the URL built by Client.request on the
default client (secure, host twitter.com, version 1, format json) differs
from the documented template, because urljoin resolves the dot dot
segment. -/
theorem C1_url_template_counterexample :
    Client.buildUrl clientW (pystr ("../x")) (pystr ("api"))
      ≠ schemeOf true ++ pystr ("://") ++ pystr ("api") ++ pystr (".")
        ++ pystr ("twitter.com") ++ pystr ("/") ++ pystr ("1") ++ pystr ("/")
        ++ pystr ("../x") ++ pystr (".") ++ pystr ("json") := by decide

/-- C1 (amended): for every subdomain and host without slash, question mark,
hash or square bracket characters, every percent-free host, every API
version without slash, dot, question mark, hash, semicolon or percent
characters, and every non-empty relative path that contains no colon,
question mark, hash or semicolon, does not start with a slash, and has no
single-dot or double-dot segments, the URL built by Client.request equals
the template scheme://subdomain.host/version/path.format, with scheme https
exactly when secure transport was selected at construction. -/
theorem C1_buildUrl_template_amended {α : Type} (secure : Bool)
    (host ver sub path fmt : PyStr) (sess : Transport) (pr : Option (Parser α))
    (hsub : ∀ ch ∈ sub, ch ∉ pystr ("/?#[]"))
    (hhost : ∀ ch ∈ host, ch ∉ pystr ("/?#[]%"))
    (hver : ∀ ch ∈ ver, ch ∉ pystr ("/.?#;%"))
    (hp0 : path ≠ []) (hpc : ∀ ch ∈ path, ch ∉ pystr (":?#;"))
    (hp2 : path.take 1 ≠ pystr ("/"))
    (hp3 : ∀ seg ∈ splitOnChar '/' path, seg ≠ pystr (".") ∧ seg ≠ pystr ("..")) :
    Client.buildUrl
      { base_url := mkBaseUrl secure host ver, session := sess,
        parser := pr, response_format := fmt } path sub
      = schemeOf secure ++ pystr ("://") ++ sub ++ pystr (".") ++ host
        ++ pystr ("/") ++ ver ++ pystr ("/") ++ path ++ pystr (".") ++ fmt := by
  have hs1 : schemeOf secure ≠ [] := by cases secure <;> decide
  have hs2 : ':' ∉ schemeOf secure := by cases secure <;> decide
  have hsA : (schemeOf secure).all (fun ch => decide (ch ∈ schemeChars)) = true := by
    cases secure <;> decide
  have hsL : toLowerStr (schemeOf secure) = schemeOf secure := by
    cases secure <;> decide
  have hsR : schemeOf secure ∈ uses_relative := by cases secure <;> decide
  have hsN : schemeOf secure ∈ uses_netloc := by cases secure <;> decide
  have hsub2 : ∀ a ∈ sub, a ≠ '/' ∧ a ≠ '?' ∧ a ≠ '#' := by
    intro a ha
    refine ⟨?_, ?_, ?_⟩ <;> (intro e; subst e; exact hsub _ ha (by decide))
  have hhost2 : ∀ a ∈ host, a ≠ '/' ∧ a ≠ '?' ∧ a ≠ '#' := by
    intro a ha
    refine ⟨?_, ?_, ?_⟩ <;> (intro e; subst e; exact hhost _ ha (by decide))
  have hv1 : '/' ∉ ver := fun m => hver '/' m (by decide)
  have hv2 : '.' ∉ ver := fun m => hver '.' m (by decide)
  have hvq : '?' ∉ ver := fun m => hver '?' m (by decide)
  have hvh : '#' ∉ ver := fun m => hver '#' m (by decide)
  have hvs : ';' ∉ ver := fun m => hver ';' m (by decide)
  have hp1 : ':' ∉ path := fun m => hpc ':' m (by decide)
  have hpq : '?' ∉ path := fun m => hpc '?' m (by decide)
  have hph : '#' ∉ path := fun m => hpc '#' m (by decide)
  have hps : ';' ∉ path := fun m => hpc ';' m (by decide)
  have e1 : pystr ("://") = ':' :: '/' :: '/' :: [] := rfl
  have e2 : pystr (".") = ['.'] := rfl
  have e3 : pystr ("/") = ['/'] := rfl
  have hbase : mkBaseUrl secure host ver sub
      = schemeOf secure ++ ':' :: '/' :: '/' ::
          (sub ++ '.' :: (host ++ '/' :: (ver ++ ['/']))) := by
    simp [mkBaseUrl, e1, e2, e3, List.append_assoc]
  simp only [Client.buildUrl]
  rw [hbase,
    urljoinM_template _ _ _ _ _ hs1 hs2 hsA hsL hsR hsN hsub2 hhost2 hv1 hv2
      hvq hvh hvs hp0 hp1 hpq hph hps hp2 hp3]
  simp [e1, e2, e3, List.append_assoc]

/-- C1 witness: the amended template theorem applied at the default
construction inputs and the path of the status update endpoint. -/
theorem C1_buildUrl_template_witness :
    Client.buildUrl
      { base_url := mkBaseUrl true (pystr ("twitter.com")) (pystr ("1")),
        session := okTransport { status_code := 200, content := [] },
        parser := Option.some natParser, response_format := pystr ("json") }
      (pystr ("statuses/update")) (pystr ("api"))
      = schemeOf true ++ pystr ("://") ++ pystr ("api") ++ pystr (".")
        ++ pystr ("twitter.com") ++ pystr ("/") ++ pystr ("1") ++ pystr ("/")
        ++ pystr ("statuses/update") ++ pystr (".") ++ pystr ("json") :=
  C1_buildUrl_template_amended true (pystr ("twitter.com")) (pystr ("1"))
    (pystr ("api")) (pystr ("statuses/update")) (pystr ("json"))
    (okTransport { status_code := 200, content := [] }) (Option.some natParser)
    (by decide) (by decide) (by decide) (by decide) (by decide) (by decide)
    (by decide)

/-- C2: a response with any status code other than 200 makes Client.request
raise TweepyError with the API error prefix and the message produced by the
parser error-parsing capability on the response body, uniformly in the status
code; a response with status 200 raises no error. -/
theorem C2_request_status_dichotomy {α : Type} (bu : PyStr → PyStr) (p : Parser α)
    (fmt method path sub : PyStr) (params : ParamMap) (files : Option Files)
    (r : HttpResponse) :
    (r.status_code ≠ 200 →
      (({ base_url := bu, session := okTransport r, parser := Option.some p,
          response_format := fmt } : Client α).request method path
          (Option.some params) files sub).result
        = Except.error (PyExn.tweepyError
            (pystr ("API error: ") ++ p.parse_error r.content)))
    ∧ (r.status_code = 200 →
      ∃ v, (({ base_url := bu, session := okTransport r, parser := Option.some p,
               response_format := fmt } : Client α).request method path
          (Option.some params) files sub).result = Except.ok v) := by
  constructor
  · intro h
    simp [Client.request, dictConvert, okTransport, h]
  · intro h
    by_cases hl : r.content.length > 0
    · exact ⟨ReqValue.parsed (p.parse_content r.content),
        by simp [Client.request, dictConvert, okTransport, h, hl]⟩
    · exact ⟨ReqValue.raw r.content,
        by simp [Client.request, dictConvert, okTransport, h, hl]⟩

/-- C2 witness: the dichotomy applied at the statuses 400, 401, 404 and 500
with a one-byte body, and at 200. -/
theorem C2_request_status_dichotomy_witness :
    (((clientResp 400 [1]).request (pystr ("GET")) (pystr ("statuses/mentions"))
        (Option.some []) Option.none (pystr ("api"))).result
      = Except.error (PyExn.tweepyError
          (pystr ("API error: ") ++ natParser.parse_error [1])))
    ∧ (((clientResp 401 [1]).request (pystr ("GET")) (pystr ("statuses/mentions"))
        (Option.some []) Option.none (pystr ("api"))).result
      = Except.error (PyExn.tweepyError
          (pystr ("API error: ") ++ natParser.parse_error [1])))
    ∧ (((clientResp 404 [1]).request (pystr ("GET")) (pystr ("statuses/mentions"))
        (Option.some []) Option.none (pystr ("api"))).result
      = Except.error (PyExn.tweepyError
          (pystr ("API error: ") ++ natParser.parse_error [1])))
    ∧ (((clientResp 500 [1]).request (pystr ("GET")) (pystr ("statuses/mentions"))
        (Option.some []) Option.none (pystr ("api"))).result
      = Except.error (PyExn.tweepyError
          (pystr ("API error: ") ++ natParser.parse_error [1])))
    ∧ (∃ v, ((clientResp 200 [1]).request (pystr ("GET")) (pystr ("statuses/mentions"))
        (Option.some []) Option.none (pystr ("api"))).result = Except.ok v) :=
  ⟨(C2_request_status_dichotomy _ natParser _ _ _ _ _ _ _).1 (by decide),
   (C2_request_status_dichotomy _ natParser _ _ _ _ _ _ _).1 (by decide),
   (C2_request_status_dichotomy _ natParser _ _ _ _ _ _ _).1 (by decide),
   (C2_request_status_dichotomy _ natParser _ _ _ _ _ _ _).1 (by decide),
   (C2_request_status_dichotomy _ natParser _ _ _ _ _ _ _).2 (by decide)⟩

/-- C3: when the dispatch raises a RequestException carrying any message,
Client.request raises the single TweepyError type with the Request error
prefix followed by the underlying cause; the transport exception itself
never reaches the caller. -/
theorem C3_transport_error_wrapped {α : Type} (bu : PyStr → PyStr)
    (pr : Option (Parser α)) (fmt e method path sub : PyStr)
    (params : ParamMap) (files : Option Files) :
    (({ base_url := bu, session := errTransport e, parser := pr,
        response_format := fmt } : Client α).request method path
        (Option.some params) files sub).result
      = Except.error (PyExn.tweepyError (pystr ("Request error: ") ++ e)) := by
  simp [Client.request, dictConvert, errTransport]

/-- C4: a 200 response with a non-empty body returns exactly the value the
configured parser content-parsing capability would independently produce
from the same bytes. -/
theorem C4_parse_roundtrip {α : Type} (bu : PyStr → PyStr) (p : Parser α)
    (fmt method path sub : PyStr) (params : ParamMap) (files : Option Files)
    (r : HttpResponse) (h200 : r.status_code = 200) (hne : r.content ≠ []) :
    (({ base_url := bu, session := okTransport r, parser := Option.some p,
        response_format := fmt } : Client α).request method path
        (Option.some params) files sub).result
      = Except.ok (ReqValue.parsed (specDirectParse p r.content)) := by
  have hl : r.content.length > 0 := List.length_pos.mpr hne
  simp [Client.request, dictConvert, okTransport, specDirectParse, h200, hl]

/-- C4 witness: the round trip applied at a 200 response with a three-byte
body; the concrete parser returns the length three. -/
theorem C4_parse_roundtrip_witness :
    ((clientResp 200 [7, 8, 9]).request (pystr ("GET")) (pystr ("statuses/show/1"))
        (Option.some []) Option.none (pystr ("api"))).result
      = Except.ok (ReqValue.parsed (specDirectParse natParser [7, 8, 9])) :=
  C4_parse_roundtrip _ natParser _ _ _ _ _ _ _ (by decide) (by decide)

/-- C5: a 200 response with an empty body makes Client.request return the raw
body bytes unchanged, and the parser content-parsing capability is never
invoked, whether a parser is configured or not. -/
theorem C5_empty_body_raw {α : Type} (bu : PyStr → PyStr) (pr : Option (Parser α))
    (fmt method path sub : PyStr) (params : ParamMap) (files : Option Files) :
    ((({ base_url := bu,
         session := okTransport { status_code := 200, content := [] },
         parser := pr, response_format := fmt } : Client α).request method path
        (Option.some params) files sub).result = Except.ok (ReqValue.raw []))
    ∧ (∀ b, Event.parseContent b ∉
        (({ base_url := bu,
            session := okTransport { status_code := 200, content := [] },
            parser := pr, response_format := fmt } : Client α).request method path
          (Option.some params) files sub).events) := by
  constructor
  · cases pr <;> simp [Client.request, dictConvert, okTransport]
  · intro b
    cases pr <;> simp [Client.request, dictConvert, okTransport]

/-- C5 witness: the empty-body case at the concrete client, with the
non-invocation fact instantiated at the empty input. -/
theorem C5_empty_body_raw_witness :
    ((clientW.request (pystr ("GET")) (pystr ("statuses/public_timeline"))
        (Option.some []) Option.none (pystr ("api"))).result
      = Except.ok (ReqValue.raw []))
    ∧ (Event.parseContent [] ∉
        (clientW.request (pystr ("GET")) (pystr ("statuses/public_timeline"))
          (Option.some []) Option.none (pystr ("api"))).events) :=
  ⟨(C5_empty_body_raw _ (Option.some natParser) _ _ _ _ _ _).1,
   (C5_empty_body_raw _ (Option.some natParser) _ _ _ _ _ _).2 []⟩

/-- C6: constructing a client fails with TweepyError carrying the
response-format message exactly when the parser does not declare support for
the requested format, and succeeds exactly when it does. -/
theorem C6_init_format_check {α : Type} (sess : Transport) (host : PyStr)
    (secure : Bool) (ver : PyStr) (p : Parser α) (fmt : PyStr) :
    (p.supports_format fmt = false →
      Client.init sess host secure ver (Option.some p) fmt
        = Except.error (PyExn.tweepyError
            (pystr ("Parse does not support response format: ") ++ fmt)))
    ∧ ((∃ c, Client.init sess host secure ver (Option.some p) fmt = Except.ok c)
        ↔ p.supports_format fmt = true) := by
  constructor
  · intro h
    simp [Client.init, h]
  · constructor
    · rintro ⟨c, hc⟩
      cases hb : p.supports_format fmt with
      | false => simp [Client.init, hb] at hc
      | true => rfl
    · intro ht
      exact ⟨{ base_url := mkBaseUrl secure host ver, session := sess,
               parser := Option.some p, response_format := fmt },
             by simp [Client.init, ht]⟩

/-- C6 witness: the concrete json parser rejects the xml format and accepts
the json format. -/
theorem C6_init_format_check_witness :
    (Client.init (okTransport { status_code := 200, content := [] })
        (pystr ("twitter.com")) true (pystr ("1")) (Option.some natParser)
        (pystr ("xml"))
      = Except.error (PyExn.tweepyError
          (pystr ("Parse does not support response format: ") ++ pystr ("xml"))))
    ∧ (∃ c, Client.init (okTransport { status_code := 200, content := [] })
        (pystr ("twitter.com")) true (pystr ("1")) (Option.some natParser)
        (pystr ("json")) = Except.ok c) :=
  ⟨(C6_init_format_check _ _ _ _ natParser _).1 (by decide),
   (C6_init_format_check _ _ _ _ natParser _).2.mpr (by decide)⟩

/-- C7: update_status with a file-system path as media delegates a POST to
statuses/update_with_media through the upload subdomain with the file bytes
attached under the media field name, and its one dispatched call records
that routing; update_status without media delegates a POST to
statuses/update through the api subdomain with no files; in both cases the
status text is bound to the status key of the parameter mapping. -/
theorem C7_update_status_routing {α : Type} (c : Client α) (fs : PyStr → Bytes)
    (status : PyVal) (p : PyStr) (params : ParamMap) :
    (c.update_status fs status (Media.path p) params
      = c.request (pystr ("POST")) (pystr ("statuses/update_with_media"))
          (Option.some (ParamMap.update params (pystr ("status")) status))
          (Option.some [(pystr ("media[]"), p, fs p)]) (pystr ("upload")))
    ∧ ((c.update_status fs status (Media.path p) params).events.head?
      = Option.some (Event.dispatched
          { method := pystr ("POST"),
            url := c.buildUrl (pystr ("statuses/update_with_media")) (pystr ("upload")),
            path := pystr ("statuses/update_with_media"),
            subdomain := pystr ("upload"),
            params := ParamMap.update params (pystr ("status")) status,
            files := Option.some [(pystr ("media[]"), p, fs p)] }))
    ∧ (c.update_status fs status Media.none params
      = c.request (pystr ("POST")) (pystr ("statuses/update"))
          (Option.some (ParamMap.update params (pystr ("status")) status))
          Option.none (pystr ("api")))
    ∧ ((c.update_status fs status Media.none params).events.head?
      = Option.some (Event.dispatched
          { method := pystr ("POST"),
            url := c.buildUrl (pystr ("statuses/update")) (pystr ("api")),
            path := pystr ("statuses/update"),
            subdomain := pystr ("api"),
            params := ParamMap.update params (pystr ("status")) status,
            files := Option.none }))
    ∧ (ParamMap.get? (ParamMap.update params (pystr ("status")) status)
        (pystr ("status")) = Option.some status) := by
  refine ⟨rfl, ?_, rfl, ?_, ?_⟩
  · exact request_events_head c _ _ _ _ _
  · exact request_events_head c _ _ _ _ _
  · simp [ParamMap.update, ParamMap.get?]

/-- C8: every call of home_timeline raises NameError for the unbound name
paramters before any request is dispatched, for every client and every
argument mapping. -/
theorem C8_home_timeline_name_error {α : Type} (c : Client α) (params : ParamMap) :
    (c.home_timeline params).result
        = Except.error (PyExn.nameError (pystr ("paramters")))
    ∧ (c.home_timeline params).events = [] := by
  constructor <;> rfl

/-- C10: every successfully constructed client carries a parser that supports
its response format, and on such a client a request can return raw bytes
only for an empty body. -/
theorem C10_constructed_client_invariant {α : Type} (sess : Transport)
    (host : PyStr) (secure : Bool) (ver : PyStr) (pr : Option (Parser α))
    (fmt : PyStr) (c : Client α)
    (h : Client.init sess host secure ver pr fmt = Except.ok c) :
    (∃ p, c.parser = Option.some p ∧ p.supports_format c.response_format = true)
    ∧ (∀ method path params files sub b,
        (c.request method path (Option.some params) files sub).result
          = Except.ok (ReqValue.raw b) → b = []) := by
  cases pr with
  | none => simp [Client.init] at h
  | some p =>
    rw [Client.init] at h
    by_cases hs : p.supports_format fmt = false
    · rw [if_pos hs] at h
      cases h
    · rw [if_neg hs] at h
      injection h with h2
      subst h2
      constructor
      · refine ⟨p, rfl, ?_⟩
        cases hb : p.supports_format fmt with
        | false => exact absurd hb hs
        | true => rfl
      · intro method path params files sub b hres
        simp only [Client.request, dictConvert] at hres
        split at hres
        · simp at hres
        next r heq =>
          split at hres
          · simp at hres
          next hst =>
            split at hres
            · simp at hres
            next hlen =>
              have hz : r.content.length = 0 := by omega
              have hznil : r.content = [] := List.length_eq_zero.mp hz
              rw [hznil] at hres
              injection hres with h3
              injection h3 with h4
              exact h4.symm

/-- C10 witness: the invariant applied to the client constructed from the
default-like inputs, whose construction equation is discharged by
computation. -/
theorem C10_constructed_client_invariant_witness :
    ∃ p, clientW.parser = Option.some p
        ∧ p.supports_format clientW.response_format = true :=
  (C10_constructed_client_invariant
    (okTransport { status_code := 200, content := [] }) (pystr ("twitter.com"))
    true (pystr ("1")) (Option.some natParser) (pystr ("json")) clientW rfl).1

end Tweepy
